import Mathlib

/-!
Verification development for the `data-cleaner` repository: a shallow
embedding of the cleaning pipeline (`src/index.js`, function `cleanData`)
and of the grouping / aggregation / percentile / pivot engine
(`grouper.js`, present as `src/unnamed/part_001`), together with theorems
settling the specification claims.

Modelling conventions:
* JS strings are modelled as `List Char` (`JStr`); the relevant JS string
  operations (`trim`, `toUpperCase`, `split`, `includes`, lexicographic
  comparison, ...) are reimplemented structurally.  JS compares strings by
  UTF-16 code unit; for the code points exercised here this coincides with
  comparison of Lean `Char` values.
* JS numbers are modelled as `JSNum`: an exact rational, `Infinity`,
  `-Infinity`, or `NaN`.  IEEE-754 rounding is not modelled; every claim
  below only involves arithmetic that is exact in doubles.
* A JS object record is an association list from field name to `Value`;
  absence of a field (JS `undefined`) is `Option.none` at lookup sites.
* Mutation (the transform stage assigns into records in place, and
  `Array.prototype.sort` reorders the array in place) is modelled with an
  explicit store: records live in a `store : List Record`, a JS array is a
  list of store indices, and `cleanData` threads the store and the caller's
  input-array contents through the stages.
-/

namespace DataCleaner

/-- JS strings, modelled as lists of characters. -/
abbrev JStr := List Char

/-- Lexicographic `<` on JS strings (code-unit order, as in `"a" < "b"`). -/
def jstrLt : JStr → JStr → Bool
  | [], [] => false
  | [], _ :: _ => true
  | _ :: _, [] => false
  | a :: as, b :: bs => if a < b then true else if b < a then false else jstrLt as bs

/-- JS whitespace for `String.prototype.trim` (ASCII part; the further
Unicode space code points JS also trims are not exercised by any claim). -/
def isJsSpace (c : Char) : Bool := c.isWhitespace

/-- JS `String.prototype.trim`. -/
def jsTrim (s : JStr) : JStr :=
  ((s.dropWhile isJsSpace).reverse.dropWhile isJsSpace).reverse

/-- JS `String.prototype.toUpperCase` (ASCII; no claim uses non-ASCII case). -/
def jsToUpper (s : JStr) : JStr := s.map Char.toUpper

/-- JS `String.prototype.toLowerCase` (ASCII). -/
def jsToLower (s : JStr) : JStr := s.map Char.toLower

/-- JS `String.prototype.includes` (literal substring search). -/
def jsIncludes : JStr → JStr → Bool
  | l, sub =>
    if sub.isPrefixOf l then true
    else match l with
      | [] => false
      | _ :: rest => jsIncludes rest sub

/-- JS `String.prototype.startsWith`. -/
def jsStartsWith (s pre : JStr) : Bool := pre.isPrefixOf s

/-- JS `String.prototype.endsWith`. -/
def jsEndsWith (s suf : JStr) : Bool := suf.isSuffixOf s

/-- Splitting loop for `String.prototype.split` with a separator; when the
separator is empty it degenerates to consuming one char at a time, which the
wrapper `jsSplitOn` never invokes. `cur` holds the current piece reversed. -/
def splitLoop (sep : JStr) : JStr → JStr → List JStr
  | [], cur => [cur.reverse]
  | c :: rest, cur =>
    if sep.isPrefixOf (c :: rest) then
      cur.reverse :: splitLoop sep (List.drop (sep.length - 1) rest) []
    else
      splitLoop sep rest (c :: cur)
termination_by l _ => l.length
decreasing_by
  all_goals simp only [List.length_drop, List.length_cons]
  all_goals omega

/-- JS `String.prototype.split(sep)`: empty separator splits into single
characters, otherwise split on every literal occurrence of `sep`. -/
def jsSplitOn (s sep : JStr) : List JStr :=
  if sep.isEmpty then s.map (fun c => [c]) else splitLoop sep s []

/-- JS `Array.prototype.join(sep)` over strings. -/
def jsJoin (sep : JStr) (parts : List JStr) : JStr := List.intercalate sep parts

/-- JS numbers: exact rationals plus the three non-finite values.  IEEE
rounding is not modelled. -/
inductive JSNum where
  | num (q : ℚ)
  | posInf
  | negInf
  | nan
deriving DecidableEq

/-- JS number truthiness: `0` and `NaN` are falsy. -/
def jsFalsyNum : JSNum → Bool
  | .num q => q == 0
  | .nan => true
  | _ => false

/-- JS `x || 0` applied to a number (used by `sum` and by the pivot value
collection: `Number(v) || 0`). -/
def jsOrZero (n : JSNum) : JSNum := if jsFalsyNum n then .num 0 else n

/-- JS `x || Infinity` applied to a number (the `min` aggregation's guard
`Number(v) || Infinity`). -/
def jsOrPosInf (n : JSNum) : JSNum := if jsFalsyNum n then .posInf else n

/-- JS `x || -Infinity` applied to a number (the `max` aggregation's guard). -/
def jsOrNegInf (n : JSNum) : JSNum := if jsFalsyNum n then .negInf else n

/-- JS `<` on numbers, three-valued: `none` when a `NaN` makes the
comparison undefined. -/
def jsNumLt : JSNum → JSNum → Option Bool
  | _, .nan => none
  | .nan, _ => none
  | .negInf, .negInf => some false
  | .negInf, _ => some true
  | .posInf, _ => some false
  | .num _, .posInf => some true
  | .num _, .negInf => some false
  | .num a, .num b => some (decide (a < b))

/-- JS `==` on numbers (`NaN` equals nothing). -/
def jsNumEq : JSNum → JSNum → Bool
  | .num a, .num b => a == b
  | .posInf, .posInf => true
  | .negInf, .negInf => true
  | _, _ => false

/-- JS `+` on numbers. -/
def jsAdd : JSNum → JSNum → JSNum
  | .nan, _ => .nan
  | _, .nan => .nan
  | .posInf, .negInf => .nan
  | .negInf, .posInf => .nan
  | .posInf, _ => .posInf
  | _, .posInf => .posInf
  | .negInf, _ => .negInf
  | _, .negInf => .negInf
  | .num a, .num b => .num (a + b)

/-- JS `*` on numbers. -/
def jsMul : JSNum → JSNum → JSNum
  | .nan, _ => .nan
  | _, .nan => .nan
  | .posInf, .posInf => .posInf
  | .posInf, .negInf => .negInf
  | .negInf, .posInf => .negInf
  | .negInf, .negInf => .posInf
  | .posInf, .num b => if b = 0 then .nan else if 0 < b then .posInf else .negInf
  | .num a, .posInf => if a = 0 then .nan else if 0 < a then .posInf else .negInf
  | .negInf, .num b => if b = 0 then .nan else if 0 < b then .negInf else .posInf
  | .num a, .negInf => if a = 0 then .nan else if 0 < a then .negInf else .posInf
  | .num a, .num b => .num (a * b)

/-- JS `/` on numbers (division by zero produces an infinity or `NaN`; the
negative zero of IEEE is identified with zero). -/
def jsDiv : JSNum → JSNum → JSNum
  | .nan, _ => .nan
  | _, .nan => .nan
  | .posInf, .posInf => .nan
  | .posInf, .negInf => .nan
  | .negInf, .posInf => .nan
  | .negInf, .negInf => .nan
  | .posInf, .num b => if 0 ≤ b then .posInf else .negInf
  | .negInf, .num b => if 0 ≤ b then .negInf else .posInf
  | .num _, .posInf => .num 0
  | .num _, .negInf => .num 0
  | .num a, .num b =>
    if b = 0 then (if a = 0 then .nan else if 0 < a then .posInf else .negInf)
    else .num (a / b)

/-- JS `Math.min` of two numbers (`NaN` absorbs). -/
def jsMin2 : JSNum → JSNum → JSNum
  | .nan, _ => .nan
  | _, .nan => .nan
  | .negInf, _ => .negInf
  | _, .negInf => .negInf
  | .posInf, y => y
  | x, .posInf => x
  | .num a, .num b => .num (min a b)

/-- JS `Math.max` of two numbers (`NaN` absorbs). -/
def jsMax2 : JSNum → JSNum → JSNum
  | .nan, _ => .nan
  | _, .nan => .nan
  | .posInf, _ => .posInf
  | _, .posInf => .posInf
  | .negInf, y => y
  | x, .negInf => x
  | .num a, .num b => .num (max a b)

/-- JS `Math.min(...list)`: `Infinity` on the empty spread. -/
def jsMathMin (l : List JSNum) : JSNum := l.foldl jsMin2 .posInf

/-- JS `Math.max(...list)`: `-Infinity` on the empty spread. -/
def jsMathMax (l : List JSNum) : JSNum := l.foldl jsMax2 .negInf

/-- Value of a list of decimal digit characters. -/
def digitsVal (cs : List Char) : Nat := cs.foldl (fun n c => 10 * n + (c.toNat - 48)) 0

/-- Parse an unsigned decimal literal `digits[.digits]` / `.digits`
(exponent, hex and binary forms of JS numeric strings are not modelled;
no claim exercises them). -/
def parseUnsigned (cs : JStr) : Option ℚ :=
  let intPart := cs.takeWhile Char.isDigit
  let rest := cs.dropWhile Char.isDigit
  match rest with
  | [] => if intPart.isEmpty then none else some ((digitsVal intPart : ℚ))
  | c :: fr =>
    if c == Char.ofNat 46 then
      let fracPart := fr.takeWhile Char.isDigit
      let rest2 := fr.dropWhile Char.isDigit
      if rest2.isEmpty && !(intPart.isEmpty && fracPart.isEmpty) then
        some ((digitsVal intPart : ℚ) + (digitsVal fracPart : ℚ) / (10 ^ fracPart.length : ℚ))
      else none
    else none

/-- JS `Number(string)`: trimmed empty string is `0`, signed decimal
literals and `Infinity` parse, anything else is `NaN`. -/
def parseNumber (s : JStr) : JSNum :=
  let t := jsTrim s
  if t.isEmpty then .num 0
  else
    let signNeg : Bool := t.headD ' ' == Char.ofNat 45
    let hasSign : Bool := signNeg || (t.headD ' ' == Char.ofNat 43)
    let body := if hasSign then t.tail else t
    if body == ("Infinity".toList) then (if signNeg then .negInf else .posInf)
    else match parseUnsigned body with
      | some q => .num (if signNeg then -q else q)
      | none => .nan

/-- JS `parseInt(string)` in base 10: sign and maximal leading digit run;
`none` models the `NaN` result. -/
def parseIntJS (s : JStr) : Option Int :=
  let t := jsTrim s
  let signNeg : Bool := t.headD ' ' == Char.ofNat 45
  let hasSign : Bool := signNeg || (t.headD ' ' == Char.ofNat 43)
  let body := if hasSign then t.tail else t
  let ds := body.takeWhile Char.isDigit
  if ds.isEmpty then none
  else some (if signNeg then -(digitsVal ds : Int) else (digitsVal ds : Int))

/-- JS runtime values stored in records: `null`, booleans, numbers,
strings.  Nested structures are not exercised by any claim and omitted;
an absent field (`undefined`) is `Option.none` at lookup sites. -/
inductive Value where
  | vNull
  | vBool (b : Bool)
  | vNum (n : JSNum)
  | vStr (s : JStr)
deriving DecidableEq

/-- Decimal digits of a natural number. -/
def natToChars (n : Nat) : JStr := Nat.toDigits 10 n

/-- Decimal form of an integer. -/
def intToChars (i : Int) : JStr :=
  if i < 0 then Char.ofNat 45 :: natToChars i.natAbs else natToChars i.natAbs

/-- JS `String(number)`.  Integers print exactly; the decimal expansion JS
prints for non-integers is not modelled (a `num/den` form stands in; no
claim depends on it). -/
def jsNumToString : JSNum → JStr
  | .num q => if q.den = 1 then intToChars q.num else intToChars q.num ++ Char.ofNat 47 :: natToChars q.den
  | .posInf => "Infinity".toList
  | .negInf => "-Infinity".toList
  | .nan => "NaN".toList

/-- JS `String(value)` for a defined value. -/
def jsToString : Value → JStr
  | .vNull => "null".toList
  | .vBool true => "true".toList
  | .vBool false => "false".toList
  | .vNum n => jsNumToString n
  | .vStr s => s

/-- JS `String(value)` including the absent case: `String(undefined)` is
the literal string `"undefined"`. -/
def jsToStringU : Option Value → JStr
  | none => "undefined".toList
  | some v => jsToString v

/-- JS `Number(value)` for a defined value. -/
def toNumber : Value → JSNum
  | .vNull => .num 0
  | .vBool b => .num (if b then 1 else 0)
  | .vNum n => n
  | .vStr s => parseNumber s

/-- JS `Number(value)` including the absent case: `Number(undefined)` is `NaN`. -/
def toNumberU : Option Value → JSNum
  | none => .nan
  | some v => toNumber v

/-- A JS object record: association list from field name to value.  Keys
are unique (records come from parsed JSON/CSV rows). -/
abbrev Record := List (JStr × Value)

/-- JS `item[field]`: `none` models `undefined` (absent field). -/
def getField (r : Record) (k : JStr) : Option Value :=
  (r.find? (fun kv => kv.1 == k)).map (fun kv => kv.2)

/-- JS `item[field] = v` on a record whose field `k` is present: the
property is updated in place (insertion position preserved). -/
def setField (r : Record) (k : JStr) (v : Value) : Record :=
  r.map (fun kv => if kv.1 == k then (kv.1, v) else kv)

/-- JS loose equality `itemValue == operand` where the operand is a string
(the CLI always supplies string operands): `undefined` and `null` are not
loosely equal to any string; a number or boolean side makes the string be
converted to a number. -/
def looseEqStr (a : Option Value) (s : JStr) : Bool :=
  match a with
  | none => false
  | some .vNull => false
  | some (.vStr t) => t == s
  | some (.vNum n) => jsNumEq n (parseNumber s)
  | some (.vBool b) => jsNumEq (.num (if b then 1 else 0)) (parseNumber s)

/-- JS abstract relational comparison `a < b`, three-valued (`none` when a
`NaN` is involved): string ↔ string compares lexicographically, any other
combination converts both sides to numbers. -/
def jsLessThan (a b : Option Value) : Option Bool :=
  match a, b with
  | some (.vStr s), some (.vStr t) => some (jstrLt s t)
  | _, _ => jsNumLt (toNumberU a) (toNumberU b)

/-- JS `new RegExp(p).test(s)` for metacharacter-free patterns, where the
regex is a literal substring search.  Patterns containing regex
metacharacters are not modelled; every theorem touching this function uses
only literal patterns. -/
def regexTest (pattern s : JStr) : Bool := jsIncludes s pattern

/-- The filter predicate of `cleanData` (src/index.js:165-191): one record
value against the string operand, switching on the operator string; the
`default` branch of the switch keeps the record. -/
def filterPred (itemValue : Option Value) (operator operand : JStr) : Bool :=
  if operator == ("eq".toList) then looseEqStr itemValue operand
  else if operator == ("neq".toList) then !(looseEqStr itemValue operand)
  else if operator == ("gt".toList) then (jsLessThan (some (.vStr operand)) itemValue).getD false
  else if operator == ("lt".toList) then (jsLessThan itemValue (some (.vStr operand))).getD false
  else if operator == ("gte".toList) then
    match jsLessThan itemValue (some (.vStr operand)) with
    | some r => !r
    | none => false
  else if operator == ("lte".toList) then
    match jsLessThan (some (.vStr operand)) itemValue with
    | some r => !r
    | none => false
  else if operator == ("contains".toList) then jsIncludes (jsToStringU itemValue) operand
  else if operator == ("startsWith".toList) then jsStartsWith (jsToStringU itemValue) operand
  else if operator == ("endsWith".toList) then jsEndsWith (jsToStringU itemValue) operand
  else if operator == ("regex".toList) then regexTest operand (jsToStringU itemValue)
  else true

/-- JS `String(x).charAt(0).toUpperCase() + String(x).slice(1).toLowerCase()`
(the `capitalize` transform). -/
def capitalizeJS (s : JStr) : JStr :=
  match s with
  | [] => []
  | c :: rest => c.toUpper :: rest.map Char.toLower

/-- The value rewrite of the transform stage (src/index.js:201-231),
switching on the transform expression; an unrecognized transform leaves the
value unchanged (the switch falls through without assigning). -/
def transformValue (transformFn : JStr) (v : Value) : Value :=
  if transformFn == ("uppercase".toList) then .vStr (jsToUpper (jsToString v))
  else if transformFn == ("lowercase".toList) then .vStr (jsToLower (jsToString v))
  else if transformFn == ("capitalize".toList) then .vStr (capitalizeJS (jsToString v))
  else if transformFn == ("trim".toList) then .vStr (jsTrim (jsToString v))
  else if transformFn == ("number".toList) then .vNum (toNumber v)
  else if transformFn == ("string".toList) then .vStr (jsToString v)
  else if jsStartsWith transformFn ("replace:".toList) then
    -- const [from, to] = transformFn.split(':')[1].split(',')
    let args := jsSplitOn ((jsSplitOn transformFn (":".toList)).getD 1 []) (",".toList)
    let fromPat := args.getD 0 []
    -- join(undefined) uses the default "," separator when no `to` part exists
    let toPat := ((args.get? 1).getD (",".toList))
    .vStr (jsJoin toPat (jsSplitOn (jsToString v) fromPat))
  else if jsStartsWith transformFn ("multiply:".toList) then
    let factor := parseNumber ((jsSplitOn transformFn (":".toList)).getD 1 [])
    .vNum (jsMul (toNumber v) factor)
  else if jsStartsWith transformFn ("divide:".toList) then
    let divisor := parseNumber ((jsSplitOn transformFn (":".toList)).getD 1 [])
    .vNum (jsDiv (toNumber v) divisor)
  else v

/-- JSON string quoting for `JSON.stringify` (quote and backslash escaped;
other escapes are not exercised by any claim). -/
def jsonQuote (s : JStr) : JStr :=
  Char.ofNat 34 :: (s.foldr (fun c acc =>
    if c == Char.ofNat 34 || c == Char.ofNat 92 then Char.ofNat 92 :: c :: acc
    else c :: acc) [Char.ofNat 34])

/-- `JSON.stringify` of a value (`NaN` and infinities serialize as `null`). -/
def jsonValue : Value → JStr
  | .vNull => "null".toList
  | .vBool true => "true".toList
  | .vBool false => "false".toList
  | .vNum (.num q) => if q.den = 1 then intToChars q.num else jsNumToString (.num q)
  | .vNum _ => "null".toList
  | .vStr s => jsonQuote s

/-- `JSON.stringify` of a record (the dedup key when no key field is given). -/
def jsonStringify (r : Record) : JStr :=
  Char.ofNat 123 :: (jsJoin (",".toList)
    (r.map (fun kv => jsonQuote kv.1 ++ ":".toList ++ jsonValue kv.2))) ++ [Char.ofNat 125]

/-- `options.filter` after CLI parsing: `column:operator:value`. -/
structure FilterSpec where
  column : JStr
  operator : JStr
  value : JStr
deriving DecidableEq

/-- `options.sort`: column plus order string (the CLI defaults `order` to
`"asc"`; any other string behaves as descending). -/
structure SortSpec where
  column : JStr
  order : JStr
deriving DecidableEq

/-- `options.transform` after CLI parsing: `column:transform[:args]`. -/
structure TransformSpec where
  column : JStr
  transform : JStr
deriving DecidableEq

/-- The options record handed to `cleanData`.  `caseOpt` carries
`options.case` (`case` is a Lean keyword).  `limit` holds the parsed
integer; JS skips the stage when the value is falsy (`0`, `NaN`, absent),
so a `NaN` from `parseInt` behaves exactly like `none`. -/
structure Options where
  removeEmpty : Bool := false
  deduplicate : Bool := false
  key : Option JStr := none
  trim : Bool := false
  caseOpt : Option JStr := none
  columns : Option (List JStr) := none
  filter : Option FilterSpec := none
  transform : Option TransformSpec := none
  sort : Option SortSpec := none
  limit : Option Int := none

/-- The mutable world of one `cleanData` call: `store` is the heap of
record objects (index = object identity), `cleaned` the working array's
contents as store indices, `inputArr` the caller's input-array contents,
and `aliased` records whether the working array is still the very input
array object (every stage that runs `filter`/`map`/`slice` produces a new
array and clears it; `sort` mutates in place and keeps it). -/
structure JSState where
  store : List Record
  cleaned : List Nat
  inputArr : List Nat
  aliased : Bool

/-- Dereference an array of record indices. -/
def resolveRefs (store : List Record) (refs : List Nat) : List Record :=
  refs.map (fun r => store.getD r [])

/-- A record is kept by the remove-empty stage iff some field value is
neither `null` nor the empty string (src/index.js:72-78; values are never
the JS `undefined` here since records store defined values). -/
def recordNonEmpty (r : Record) : Bool :=
  r.any (fun kv => !(kv.2 == Value.vNull) && !(kv.2 == Value.vStr []))

/-- Stage 1, remove-empty (src/index.js:70-80): `filter` allocates a new
array; records are shared, the store is untouched. -/
def stageRemoveEmpty (opts : Options) (st : JSState) : JSState :=
  if opts.removeEmpty then
    { st with cleaned := st.cleaned.filter (fun r => recordNonEmpty (st.store.getD r [])),
              aliased := false }
  else st

/-- The dedup key (src/index.js:87): value of the designated field when a
(truthy) key option is given, otherwise the JSON serialization. -/
inductive DedupKey where
  | fieldKey (v : Option Value)
  | jsonKey (s : JStr)
deriving DecidableEq

def dedupKeyOf (opts : Options) (r : Record) : DedupKey :=
  match opts.key with
  | some k => if k.isEmpty then .jsonKey (jsonStringify r) else .fieldKey (getField r k)
  | none => .jsonKey (jsonStringify r)

/-- First-occurrence filter of the dedup stage, threading the `seen` set. -/
def dedupGo (opts : Options) (store : List Record) (seen : List DedupKey) :
    List Nat → List Nat
  | [] => []
  | r :: rest =>
    let k := dedupKeyOf opts (store.getD r [])
    if k ∈ seen then dedupGo opts store seen rest
    else r :: dedupGo opts store (k :: seen) rest

/-- Stage 2, deduplicate (src/index.js:83-93). -/
def stageDedup (opts : Options) (st : JSState) : JSState :=
  if opts.deduplicate then
    { st with cleaned := dedupGo opts st.store [] st.cleaned, aliased := false }
  else st

/-- `map` over the working array allocating a fresh record per element
(the trim / case / column stages build `result = {}` records): the new
records are appended to the store and the array is replaced by references
to them. -/
def allocMap (st : JSState) (f : Record → Record) : JSState :=
  { store := st.store ++ st.cleaned.map (fun r => f (st.store.getD r [])),
    cleaned := (List.range st.cleaned.length).map (fun i => st.store.length + i),
    inputArr := st.inputArr,
    aliased := false }

/-- Per-record trim (src/index.js:98-107). -/
def trimRecord (r : Record) : Record :=
  r.map (fun kv => match kv.2 with
    | .vStr s => (kv.1, .vStr (jsTrim s))
    | _ => kv)

/-- Stage 3, trim. -/
def stageTrim (opts : Options) (st : JSState) : JSState :=
  if opts.trim then allocMap st trimRecord else st

/-- JS title case: the regex `\w\S*` finds tokens starting at a word
character; each token's first character is upcased and the rest downcased. -/
def isWordChar (c : Char) : Bool := c.isAlphanum || c == Char.ofNat 95

def titleCaseJS : JStr → JStr
  | [] => []
  | c :: rest =>
    if isWordChar c then
      c.toUpper :: (rest.takeWhile (fun d => !isJsSpace d)).map Char.toLower
        ++ titleCaseJS (rest.dropWhile (fun d => !isJsSpace d))
    else c :: titleCaseJS rest
termination_by l => l.length
decreasing_by
  all_goals simp only [List.length_cons]
  · have := List.Sublist.length_le (List.dropWhile_sublist (l := rest) (fun d => !isJsSpace d))
    omega
  · omega

/-- Per-record case conversion (src/index.js:114-139): for a string field
the switch assigns the converted value; an unrecognized case type assigns
nothing, dropping the field from the fresh record. -/
def caseRecord (c : JStr) (r : Record) : Record :=
  r.filterMap (fun kv => match kv.2 with
    | .vStr s =>
      if c == ("upper".toList) then some (kv.1, .vStr (jsToUpper s))
      else if c == ("lower".toList) then some (kv.1, .vStr (jsToLower s))
      else if c == ("title".toList) then some (kv.1, .vStr (titleCaseJS s))
      else none
    | _ => some kv)

/-- Stage 4, case conversion (`options.case` must be truthy: non-empty). -/
def stageCase (opts : Options) (st : JSState) : JSState :=
  match opts.caseOpt with
  | some c => if c.isEmpty then st else allocMap st (caseRecord c)
  | none => st

/-- Per-record column projection (src/index.js:146-157): keep the listed
columns present in the record, in list order. -/
def projectRecord (cols : List JStr) (r : Record) : Record :=
  cols.filterMap (fun c => (getField r c).map (fun v => (c, v)))

/-- Stage 5, column projection. -/
def stageColumns (opts : Options) (st : JSState) : JSState :=
  match opts.columns with
  | some cols => allocMap st (projectRecord cols)
  | none => st

/-- Stage 6, filter (src/index.js:162-193). -/
def stageFilter (opts : Options) (st : JSState) : JSState :=
  match opts.filter with
  | some f =>
    let keep := fun r => filterPred (getField (st.store.getD r []) f.column) f.operator f.value
    { st with cleaned := st.cleaned.filter keep, aliased := false }
  | none => st

/-- The transform stage's per-record mutation (src/index.js:199-233): when
the column option is truthy and the field is defined, the record's field is
overwritten in place; the record itself is returned. -/
def transformRecord (column transformFn : JStr) (r : Record) : Record :=
  if column.isEmpty then r
  else match getField r column with
    | some v => setField r column (transformValue transformFn v)
    | none => r

/-- In-place mutation of every referenced record in the store (duplicated
references are transformed repeatedly, as the JS aliasing would). -/
def mutateAll (store : List Record) (refs : List Nat) (t : TransformSpec) : List Record :=
  refs.foldl (fun s r => s.set r (transformRecord t.column t.transform (s.getD r []))) store

/-- Stage 7, field transform: `map` allocates a new array object but
returns the same (mutated) records. -/
def stageTransform (opts : Options) (st : JSState) : JSState :=
  match opts.transform with
  | some t => { st with store := mutateAll st.store st.cleaned t, aliased := false }
  | none => st

/-- Stable insertion used to model `Array.prototype.sort` (which is
required stable by the JS spec): an earlier element goes before a later
one whenever the comparator does not order them strictly after. -/
def insertCmp (le : α → α → Bool) (x : α) : List α → List α
  | [] => [x]
  | y :: ys => if le x y then x :: y :: ys else y :: insertCmp le x ys

def sortCmpList (le : α → α → Bool) : List α → List α
  | [] => []
  | x :: xs => insertCmp le x (sortCmpList le xs)

/-- The sort comparator of src/index.js:242-248 as a ≤-test: comparator
result `-1`/`0` keeps `a` before `b`. -/
def sortLe (store : List Record) (column order : JStr) (a b : Nat) : Bool :=
  let aVal := getField (store.getD a []) column
  let bVal := getField (store.getD b []) column
  let cmp : Int :=
    if (jsLessThan aVal bVal).getD false then (if order == ("asc".toList) then -1 else 1)
    else if (jsLessThan bVal aVal).getD false then (if order == ("asc".toList) then 1 else -1)
    else 0
  cmp ≤ 0

/-- Stage 8, sort (src/index.js:239-250): `sort` reorders the array in
place; when the working array is still the caller's input array, the
input's contents are reordered with it. -/
def stageSort (opts : Options) (st : JSState) : JSState :=
  match opts.sort with
  | some sp =>
    let sorted := sortCmpList (sortLe st.store sp.column sp.order) st.cleaned
    { st with cleaned := sorted,
              inputArr := if st.aliased then sorted else st.inputArr }
  | none => st

/-- JS `array.slice(0, n)` (a negative end counts from the end). -/
def jsSliceTo (n : Int) (l : List α) : List α :=
  if n < 0 then l.take ((l.length : Int) + n).toNat else l.take n.toNat

/-- Stage 9, limit (src/index.js:253-257): `if (options.limit)` skips the
stage for a falsy limit, so a limit of `0` leaves the table untouched. -/
def stageLimit (opts : Options) (st : JSState) : JSState :=
  match opts.limit with
  | some n =>
    if n = 0 then st
    else { st with cleaned := jsSliceTo n st.cleaned, aliased := false }
  | none => st

/-- `cleanData(data, options)` (src/index.js:66-260) over an array-shaped
table of records: the nine optional stages in their fixed source order.
The result state's `cleaned` is the returned table, `inputArr` the
caller's input array contents after the call. -/
def cleanData (store : List Record) (data : List Nat) (opts : Options) : JSState :=
  stageLimit opts (stageSort opts (stageTransform opts (stageFilter opts
    (stageColumns opts (stageCase opts (stageTrim opts (stageDedup opts
      (stageRemoveEmpty opts
        { store := store, cleaned := data, inputArr := data, aliased := true }))))))))

/-! ## Grouping / aggregation engine (grouper.js, src/unnamed/part_001) -/

/-- One key segment of the composite group key (grouper.js:33-36):
`value !== undefined && value !== null ? String(value) : '__null__'`. -/
def groupKeySeg (item : Record) (field : JStr) : JStr :=
  match getField item field with
  | none => "__null__".toList
  | some v => if v == Value.vNull then "__null__".toList else jsToString v

/-- The composite group key (grouper.js:37): segments joined with `'|'`,
with no escaping. -/
def compositeKey (fields : List JStr) (item : Record) : JStr :=
  jsJoin ("|".toList) (fields.map (groupKeySeg item))

/-- Push `x` onto the entry for `key` of a string-keyed JS object of
arrays, creating the entry at the end when absent (JS objects preserve
insertion order of string keys). -/
def insertAppend (m : List (JStr × List α)) (key : JStr) (x : α) : List (JStr × List α) :=
  match m with
  | [] => [(key, [x])]
  | (k, g) :: rest =>
    if k == key then (k, g ++ [x]) :: rest else (k, g) :: insertAppend rest key x

/-- `groupByMultiple(data, groupByFields)` (grouper.js:29-46). -/
def groupByMultiple (data : List Record) (groupByFields : List JStr) :
    List (JStr × List Record) :=
  data.foldl (fun gs item => insertAppend gs (compositeKey groupByFields item) item) []

/-- The values an aggregation sees for one field (grouper.js:58-60):
fields of the group members, with `null`/`undefined`/empty-string dropped. -/
def filteredValues (group : List Record) (fieldName : JStr) : List Value :=
  group.filterMap (fun item =>
    match getField item fieldName with
    | none => none
    | some v => if v == Value.vNull || v == Value.vStr [] then none else some v)

/-- `values.reduce((sum, v) => sum + (Number(v) || 0), 0)` (the `sum` and
`avg` numerator). -/
def aggSum (values : List Value) : JSNum :=
  values.foldl (fun s v => jsAdd s (jsOrZero (toNumber v))) (.num 0)

/-- Distinct count via JS `Set` (SameValueZero equality). -/
def distinctCount (values : List Value) : Nat :=
  (values.foldl (fun acc v => if v ∈ acc then acc else acc ++ [v]) []).length

/-- The numeric ascending comparator `(a, b) => a - b` of
`calculatePercentile` as a ≤-test. -/
def qLeB (a b : ℚ) : Bool := decide (a ≤ b)

/-- `calculatePercentile(values, percentile)` (grouper.js:122-137) on
finite numeric values, over exact rationals: sort ascending, linear
interpolation at continuous rank `(p/100)*(n-1)`.  The double-precision
computation is exact at every input a claim touches. -/
def calculatePercentile (values : List ℚ) (percentile : ℚ) : ℚ :=
  if values.length = 0 then 0
  else
    let sorted := sortCmpList qLeB values
    let index := (percentile / 100) * ((sorted.length : ℚ) - 1)
    let lower := ⌊index⌋
    let upper := ⌈index⌉
    let weight := index - (lower : ℚ)
    if (sorted.length : Int) ≤ upper then sorted.getD (sorted.length - 1) 0
    else sorted.getD lower.toNat 0 * (1 - weight) + sorted.getD upper.toNat 0 * weight

/-- Whether a JS number is finite. -/
def numIsFinite : JSNum → Bool
  | .num _ => true
  | _ => false

def finitePart : JSNum → Option ℚ
  | .num q => some q
  | _ => none

/-- The percentile aggregation branch over JS numbers.  With a `NaN`
percentile argument on a non-empty list, or with non-finite inputs, the JS
computation degenerates (NaN indexing / an unspecified sort order) and is
modelled as `NaN`; no claim exercises those inputs. -/
def calculatePercentileJS (nums : List JSNum) (p : Option Int) : JSNum :=
  if nums.length = 0 then .num 0
  else match p with
    | none => .nan
    | some pi =>
      if nums.all numIsFinite then .num (calculatePercentile (nums.filterMap finitePart) (pi : ℚ))
      else .nan

/-- The result of one aggregation (grouper.js:62-110), tagged by the shape
each branch produces: a number, a raw value (possibly `undefined` for
`first`/`last` of an empty list), a string (`concat`), or the value list
(`array`). -/
inductive AggResult where
  | num (n : JSNum)
  | val (v : Option Value)
  | str (s : JStr)
  | arr (vs : List Value)
deriving DecidableEq

/-- One `switch (aggType)` dispatch of `aggregateGroup`; `none` models the
default branch assigning nothing (field silently omitted) for an
unrecognized aggregation kind without a `percentile:` prefix. -/
def aggregateOne (values : List Value) (aggType : JStr) : Option AggResult :=
  if aggType == ("sum".toList) then some (.num (aggSum values))
  else if aggType == ("avg".toList) then
    some (.num (if values.length > 0 then jsDiv (aggSum values) (.num (values.length : ℚ)) else .num 0))
  else if aggType == ("min".toList) then
    some (.num (jsMathMin (values.map (fun v => jsOrPosInf (toNumber v)))))
  else if aggType == ("max".toList) then
    some (.num (jsMathMax (values.map (fun v => jsOrNegInf (toNumber v)))))
  else if aggType == ("count".toList) then some (.num (.num (values.length : ℚ)))
  else if aggType == ("count_distinct".toList) then some (.num (.num (distinctCount values : ℚ)))
  else if aggType == ("first".toList) then some (.val (values.get? 0))
  else if aggType == ("last".toList) then some (.val (values.get? (values.length - 1)))
  else if aggType == ("concat".toList) then
    some (.str (jsJoin (", ".toList) (values.map jsToString)))
  else if aggType == ("array".toList) then some (.arr values)
  else if jsStartsWith aggType ("percentile:".toList) then
    some (.num (calculatePercentileJS (values.map toNumber)
      (parseIntJS ((jsSplitOn aggType (":".toList)).getD 1 []))))
  else none

/-- `aggregateGroup(group, aggregations)` (grouper.js:54-114): the result
object built over the aggregation entries in order (keys of an aggregation
spec are unique). -/
def aggregateGroup (group : List Record) (aggregations : List (JStr × JStr)) :
    List (JStr × AggResult) :=
  aggregations.foldl (fun res fa =>
    match aggregateOne (filteredValues group fa.1) fa.2 with
    | some r => res ++ [(fa.1, r)]
    | none => res) []

/-! ## Pivot engine (grouper.js:272-332) -/

/-- JS `Set` insertion order: first appearances, SameValueZero dedup. -/
def firstAppear (l : List (Option Value)) : List (Option Value) :=
  l.foldl (fun acc v => if v ∈ acc then acc else acc ++ [v]) []

/-- The template key `` `${rowKey}::${colKey}` `` of the value collection. -/
def pivotKeyStr (rs cs : JStr) : JStr := rs ++ "::".toList ++ cs

/-- Lookup in a string-keyed JS object modelled as an association list. -/
def lookupStr (m : List (JStr × α)) (k : JStr) : Option α :=
  (m.find? (fun p => p.1 == k)).map (fun p => p.2)

/-- JS object property assignment: update in place when the key exists
(insertion position preserved), else append. -/
def jsObjSet (m : List (JStr × α)) (k : JStr) (v : α) : List (JStr × α) :=
  match m with
  | [] => [(k, v)]
  | (k0, v0) :: rest =>
    if k0 == k then (k0, v) :: rest else (k0, v0) :: jsObjSet rest k v

/-- The value collection of `pivotTable` (grouper.js:278-291): per
`row::col` string key, the list of `Number(item[valueField]) || 0`. -/
def collectValues (data : List Record) (rowField columnField valueField : JStr) :
    List (JStr × List JSNum) :=
  data.foldl (fun m item =>
    insertAppend m
      (pivotKeyStr (jsToStringU (getField item rowField)) (jsToStringU (getField item columnField)))
      (jsOrZero (toNumberU (getField item valueField)))) []

/-- The aggregation switch of `pivotTable` (grouper.js:302-321); the empty
value list yields `0` in every branch. -/
def pivotAgg (aggFunction : JStr) (vals : List JSNum) : JSNum :=
  if aggFunction == ("sum".toList) then vals.foldl jsAdd (.num 0)
  else if aggFunction == ("avg".toList) then
    if vals.length > 0 then jsDiv (vals.foldl jsAdd (.num 0)) (.num (vals.length : ℚ)) else .num 0
  else if aggFunction == ("count".toList) then .num (vals.length : ℚ)
  else if aggFunction == ("min".toList) then
    if vals.length > 0 then jsMathMin vals else .num 0
  else if aggFunction == ("max".toList) then
    if vals.length > 0 then jsMathMax vals else .num 0
  else vals.foldl jsAdd (.num 0)

/-- The inner cell object for one row key (grouper.js:297-324): iterate
the collected column values, `pivot[row][col] = aggValue`. -/
def pivotCells (valuesMap : List (JStr × List JSNum)) (aggFunction : JStr)
    (colKeys : List (Option Value)) (rs : JStr) : List (JStr × JSNum) :=
  colKeys.foldl (fun obj c =>
    jsObjSet obj (jsToStringU c)
      (pivotAgg aggFunction ((lookupStr valuesMap (pivotKeyStr rs (jsToStringU c))).getD []))) []

/-- The full `pivot` data object (grouper.js:294-325). -/
def pivotDataObj (valuesMap : List (JStr × List JSNum)) (aggFunction : JStr)
    (rowKeys colKeys : List (Option Value)) : List (JStr × List (JStr × JSNum)) :=
  rowKeys.foldl (fun obj r =>
    jsObjSet obj (jsToStringU r) (pivotCells valuesMap aggFunction colKeys (jsToStringU r))) []

/-- JS default `Array.prototype.sort()` over possibly-undefined values:
undefined elements go last, the rest are ordered by their string form. -/
def sortDefaultJS (l : List (Option Value)) : List (Option Value) :=
  sortCmpList (fun a b => !(jstrLt (jsToStringU b) (jsToStringU a)))
      (l.filter (fun v => v.isSome))
    ++ l.filter (fun v => !v.isSome)

/-- The result of `pivotTable`: `rows`/`columns` are the distinct raw
key values sorted by `Array.prototype.sort()`, `data` the row → column →
aggregate mapping. -/
structure PivotResult where
  rows : List (Option Value)
  columns : List (Option Value)
  data : List (JStr × List (JStr × JSNum))
deriving DecidableEq

/-- `pivotTable(data, rowField, columnField, valueField, aggFunction)`
(grouper.js:272-332). -/
def pivotTable (data : List Record) (rowField columnField valueField aggFunction : JStr) :
    PivotResult :=
  let rowKeys := firstAppear (data.map (fun item => getField item rowField))
  let colKeys := firstAppear (data.map (fun item => getField item columnField))
  let valuesMap := collectValues data rowField columnField valueField
  { rows := sortDefaultJS rowKeys,
    columns := sortDefaultJS colKeys,
    data := pivotDataObj valuesMap aggFunction rowKeys colKeys }

/-! ## Helper lemmas -/

lemma insertCmp_perm (le : α → α → Bool) (x : α) (l : List α) :
    List.Perm (insertCmp le x l) (x :: l) := by
  induction l with
  | nil => exact List.Perm.refl _
  | cons y ys ih =>
    cases h : le x y with
    | true => simp [insertCmp, h]
    | false =>
      simp only [insertCmp, h, Bool.false_eq_true, if_false]
      exact (ih.cons y).trans (List.Perm.swap x y ys)

lemma sortCmpList_perm (le : α → α → Bool) (l : List α) :
    List.Perm (sortCmpList le l) l := by
  induction l with
  | nil => exact List.Perm.refl _
  | cons x xs ih => exact (insertCmp_perm le x (sortCmpList le xs)).trans (ih.cons x)

lemma sortCmpList_length (le : α → α → Bool) (l : List α) :
    (sortCmpList le l).length = l.length :=
  (sortCmpList_perm le l).length_eq

lemma mem_sortCmpList (le : α → α → Bool) (l : List α) (x : α) :
    x ∈ sortCmpList le l ↔ x ∈ l :=
  (sortCmpList_perm le l).mem_iff

lemma pairwise_insertCmp_q (x : ℚ) (l : List ℚ) (h : l.Pairwise (· ≤ ·)) :
    (insertCmp qLeB x l).Pairwise (· ≤ ·) := by
  induction l with
  | nil => simp [insertCmp]
  | cons y ys ih =>
    rw [List.pairwise_cons] at h
    obtain ⟨hy, hys⟩ := h
    by_cases hxy : x ≤ y
    · have : qLeB x y = true := by simpa [qLeB] using hxy
      simp only [insertCmp, this, if_true]
      refine List.Pairwise.cons ?_ (List.Pairwise.cons hy hys)
      intro b hb
      rcases List.mem_cons.mp hb with rfl | hb
      · exact hxy
      · exact le_trans hxy (hy b hb)
    · have : qLeB x y = false := by simpa [qLeB] using hxy
      simp only [insertCmp, this, Bool.false_eq_true, if_false]
      refine List.Pairwise.cons ?_ (ih hys)
      intro b hb
      rcases List.mem_cons.mp ((insertCmp_perm qLeB x ys).mem_iff.mp hb) with rfl | h1
      · exact le_of_not_le hxy
      · exact hy b h1

lemma pairwise_sortCmpList_q (l : List ℚ) :
    (sortCmpList qLeB l).Pairwise (· ≤ ·) := by
  induction l with
  | nil => simp [sortCmpList]
  | cons x xs ih => exact pairwise_insertCmp_q x (sortCmpList qLeB xs) ih

lemma getD_zero_mem (l : List ℚ) (h : l ≠ []) : l.getD 0 0 ∈ l := by
  cases l with
  | nil => exact absurd rfl h
  | cons a t => simp [List.getD]

lemma sorted_getD_zero_le (l : List ℚ) (h : l.Pairwise (· ≤ ·)) (x : ℚ) (hx : x ∈ l) :
    l.getD 0 0 ≤ x := by
  cases l with
  | nil => simp at hx
  | cons a t =>
    rw [List.pairwise_cons] at h
    rcases List.mem_cons.mp hx with rfl | hxt
    · simp [List.getD]
    · simpa [List.getD] using h.1 x hxt

lemma getD_last_mem (l : List ℚ) (h : l ≠ []) : l.getD (l.length - 1) 0 ∈ l := by
  induction l with
  | nil => exact absurd rfl h
  | cons a t ih =>
    cases t with
    | nil => simp [List.getD]
    | cons b t2 =>
      have : (a :: b :: t2).getD ((a :: b :: t2).length - 1) 0
          = (b :: t2).getD ((b :: t2).length - 1) 0 := by
        simp [List.getD_cons_succ]
      rw [this]
      exact List.mem_cons_of_mem a (ih (by simp))

lemma sorted_le_getD_last (l : List ℚ) (h : l.Pairwise (· ≤ ·)) (x : ℚ) (hx : x ∈ l) :
    x ≤ l.getD (l.length - 1) 0 := by
  induction l with
  | nil => simp at hx
  | cons a t ih =>
    rw [List.pairwise_cons] at h
    cases t with
    | nil =>
      rcases List.mem_cons.mp hx with rfl | h2
      · simp [List.getD]
      · simp at h2
    | cons b t2 =>
      have hcast : (a :: b :: t2).getD ((a :: b :: t2).length - 1) 0
          = (b :: t2).getD ((b :: t2).length - 1) 0 := by
        simp [List.getD_cons_succ]
      rw [hcast]
      rcases List.mem_cons.mp hx with rfl | hxt
      · exact le_trans (h.1 _ (getD_last_mem (b :: t2) (by simp))) le_rfl
      · exact ih h.2 hxt

/-- `calculatePercentile` at percentile 0 picks the head of the sorted list. -/
lemma calcP_zero (values : List ℚ) (h : values ≠ []) :
    calculatePercentile values 0 = (sortCmpList qLeB values).getD 0 0 := by
  have hlen : ¬ values.length = 0 := by simpa [List.length_eq_zero] using h
  have hlen1 : 1 ≤ values.length := Nat.one_le_iff_ne_zero.mpr hlen
  have hidx : ((0 : ℚ) / 100) * (((sortCmpList qLeB values).length : ℚ) - 1) = 0 := by
    norm_num
  have hcond : ¬ (((sortCmpList qLeB values).length : Int) ≤ (0 : Int)) := by
    rw [sortCmpList_length]
    exact_mod_cast Nat.not_le.mpr hlen1
  unfold calculatePercentile
  rw [if_neg hlen]
  simp only [hidx, Int.floor_zero, Int.ceil_zero, if_neg hcond]
  simp

/-- `calculatePercentile` at percentile 100 picks the last of the sorted list. -/
lemma calcP_hundred (values : List ℚ) (h : values ≠ []) :
    calculatePercentile values 100
      = (sortCmpList qLeB values).getD ((sortCmpList qLeB values).length - 1) 0 := by
  have hlen : ¬ values.length = 0 := by simpa [List.length_eq_zero] using h
  have hlen1 : 1 ≤ values.length := Nat.one_le_iff_ne_zero.mpr hlen
  have hslen : (sortCmpList qLeB values).length = values.length := sortCmpList_length _ _
  have hidx : ((100 : ℚ) / 100) * (((sortCmpList qLeB values).length : ℚ) - 1)
      = ((((sortCmpList qLeB values).length : Int) - 1 : Int) : ℚ) := by
    push_cast
    ring
  have hcond : ¬ (((sortCmpList qLeB values).length : Int)
      ≤ ((sortCmpList qLeB values).length : Int) - 1) := by omega
  have htn : (((sortCmpList qLeB values).length : Int) - 1).toNat
      = (sortCmpList qLeB values).length - 1 := by
    rw [hslen]; omega
  unfold calculatePercentile
  rw [if_neg hlen]
  simp only [hidx, Int.floor_intCast, Int.ceil_intCast, if_neg hcond, htn]
  simp

/-- The store only grows: every pre-existing record object keeps its
content. -/
def StoreExt (s sNew : List Record) : Prop := ∃ t, sNew = s ++ t

lemma StoreExt.refl (s : List Record) : StoreExt s s := ⟨[], by simp⟩

lemma StoreExt.trans {a b c : List Record} (h1 : StoreExt a b) (h2 : StoreExt b c) :
    StoreExt a c := by
  obtain ⟨t1, rfl⟩ := h1
  obtain ⟨t2, rfl⟩ := h2
  exact ⟨t1 ++ t2, by simp⟩

lemma resolveRefs_append (store t : List Record) (refs : List Nat)
    (h : ∀ r ∈ refs, r < store.length) :
    resolveRefs (store ++ t) refs = resolveRefs store refs := by
  unfold resolveRefs
  apply List.map_congr_left
  intro r hr
  simp [List.getD, List.getElem?_append_left (h r hr)]

lemma stageRemoveEmpty_frame (opts : Options) (st : JSState) :
    (stageRemoveEmpty opts st).inputArr = st.inputArr ∧
    StoreExt st.store (stageRemoveEmpty opts st).store := by
  unfold stageRemoveEmpty
  split
  · exact ⟨rfl, StoreExt.refl _⟩
  · exact ⟨rfl, StoreExt.refl _⟩

lemma stageDedup_frame (opts : Options) (st : JSState) :
    (stageDedup opts st).inputArr = st.inputArr ∧
    StoreExt st.store (stageDedup opts st).store := by
  unfold stageDedup
  split
  · exact ⟨rfl, StoreExt.refl _⟩
  · exact ⟨rfl, StoreExt.refl _⟩

lemma allocMap_frame (st : JSState) (f : Record → Record) :
    (allocMap st f).inputArr = st.inputArr ∧ StoreExt st.store (allocMap st f).store :=
  ⟨rfl, ⟨st.cleaned.map (fun r => f (st.store.getD r [])), rfl⟩⟩

lemma stageTrim_frame (opts : Options) (st : JSState) :
    (stageTrim opts st).inputArr = st.inputArr ∧
    StoreExt st.store (stageTrim opts st).store := by
  unfold stageTrim
  split
  · exact allocMap_frame st trimRecord
  · exact ⟨rfl, StoreExt.refl _⟩

lemma stageCase_frame (opts : Options) (st : JSState) :
    (stageCase opts st).inputArr = st.inputArr ∧
    StoreExt st.store (stageCase opts st).store := by
  unfold stageCase
  split
  · split
    · exact ⟨rfl, StoreExt.refl _⟩
    · exact allocMap_frame st (caseRecord _)
  · exact ⟨rfl, StoreExt.refl _⟩

lemma stageColumns_frame (opts : Options) (st : JSState) :
    (stageColumns opts st).inputArr = st.inputArr ∧
    StoreExt st.store (stageColumns opts st).store := by
  unfold stageColumns
  split
  · exact allocMap_frame st (projectRecord _)
  · exact ⟨rfl, StoreExt.refl _⟩

lemma stageFilter_frame (opts : Options) (st : JSState) :
    (stageFilter opts st).inputArr = st.inputArr ∧
    StoreExt st.store (stageFilter opts st).store := by
  unfold stageFilter
  split
  · exact ⟨rfl, StoreExt.refl _⟩
  · exact ⟨rfl, StoreExt.refl _⟩

lemma stageLimit_frame (opts : Options) (st : JSState) :
    (stageLimit opts st).inputArr = st.inputArr ∧
    StoreExt st.store (stageLimit opts st).store := by
  unfold stageLimit
  split
  · split
    · exact ⟨rfl, StoreExt.refl _⟩
    · exact ⟨rfl, StoreExt.refl _⟩
  · exact ⟨rfl, StoreExt.refl _⟩

lemma stageTransform_none (opts : Options) (st : JSState) (h : opts.transform = none) :
    stageTransform opts st = st := by
  simp [stageTransform, h]

lemma stageSort_none (opts : Options) (st : JSState) (h : opts.sort = none) :
    stageSort opts st = st := by
  simp [stageSort, h]

lemma jsNumLt_nan_right (x : JSNum) : jsNumLt x .nan = none := by
  cases x <;> rfl

lemma jsNumLt_nan_left (y : JSNum) : jsNumLt .nan y = none := by
  cases y <;> rfl

lemma jsJoin_single (sep x : JStr) : jsJoin sep [x] = x := by
  simp [jsJoin, List.intercalate]

/-- Every record of a `groupByMultiple` group carries that group's
composite key. -/
lemma insertAppend_key_inv (fields : List JStr) (m : List (JStr × List Record))
    (key : JStr) (item : Record)
    (hinv : ∀ kg ∈ m, ∀ r ∈ kg.2, compositeKey fields r = kg.1)
    (hitem : compositeKey fields item = key) :
    ∀ kg ∈ insertAppend m key item, ∀ r ∈ kg.2, compositeKey fields r = kg.1 := by
  induction m with
  | nil =>
    intro kg hkg r hr
    simp only [insertAppend, List.mem_singleton] at hkg
    subst hkg
    simp only [List.mem_singleton] at hr
    subst hr
    exact hitem
  | cons hd tl ih =>
    obtain ⟨k, g⟩ := hd
    intro kg hkg r hr
    by_cases hk : (k == key) = true
    · rw [show insertAppend ((k, g) :: tl) key item = (k, g ++ [item]) :: tl by
        simp [insertAppend, hk]] at hkg
      rcases List.mem_cons.mp hkg with rfl | hmem
      · rcases List.mem_append.mp hr with hg | hitm
        · exact hinv (k, g) (List.mem_cons_self _ _) r hg
        · simp only [List.mem_singleton] at hitm
          subst hitm
          rw [hitem]
          exact (beq_iff_eq.mp hk).symm
      · exact hinv kg (List.mem_cons_of_mem _ hmem) r hr
    · rw [show insertAppend ((k, g) :: tl) key item = (k, g) :: insertAppend tl key item by
        simp [insertAppend, hk]] at hkg
      rcases List.mem_cons.mp hkg with rfl | hmem
      · exact hinv (k, g) (List.mem_cons_self _ _) r hr
      · exact ih (fun kg2 h2 => hinv kg2 (List.mem_cons_of_mem _ h2)) kg hmem r hr

lemma groupByMultiple_key (fields : List JStr) (data : List Record) :
    ∀ kg ∈ groupByMultiple data fields, ∀ r ∈ kg.2, compositeKey fields r = kg.1 := by
  suffices h : ∀ gs : List (JStr × List Record),
      (∀ kg ∈ gs, ∀ r ∈ kg.2, compositeKey fields r = kg.1) →
      ∀ kg ∈ data.foldl (fun gs item => insertAppend gs (compositeKey fields item) item) gs,
        ∀ r ∈ kg.2, compositeKey fields r = kg.1 by
    refine h [] ?_
    intro kg hkg
    simp at hkg
  induction data with
  | nil => intro gs hinv; exact hinv
  | cons d rest ih =>
    intro gs hinv
    simp only [List.foldl_cons]
    exact ih _ (insertAppend_key_inv fields gs _ d hinv rfl)

lemma lookupStr_cons {β : Type} (k0 : JStr) (v0 : β) (tl : List (JStr × β)) (k2 : JStr) :
    lookupStr ((k0, v0) :: tl) k2 = if k0 = k2 then some v0 else lookupStr tl k2 := by
  by_cases h : k0 = k2
  · simp [lookupStr, List.find?, h]
  · simp [lookupStr, List.find?, h, beq_eq_false_iff_ne.mpr h]

lemma lookupStr_jsObjSet {β : Type} (m : List (JStr × β)) (k : JStr) (v : β) (k2 : JStr) :
    lookupStr (jsObjSet m k v) k2 = if k2 = k then some v else lookupStr m k2 := by
  induction m with
  | nil =>
    by_cases h : k2 = k
    · subst h
      simp [jsObjSet, lookupStr_cons]
    · rw [show jsObjSet ([] : List (JStr × β)) k v = [(k, v)] from rfl,
        lookupStr_cons, if_neg (fun e => h e.symm), if_neg h]
  | cons hd tl ih =>
    obtain ⟨k0, v0⟩ := hd
    by_cases h0 : k0 = k
    · subst h0
      rw [show jsObjSet ((k0, v0) :: tl) k0 v = (k0, v) :: tl by simp [jsObjSet]]
      by_cases h2 : k2 = k0
      · subst h2
        simp [lookupStr_cons]
      · rw [lookupStr_cons, if_neg (fun e => h2 e.symm), if_neg h2, lookupStr_cons,
          if_neg (fun e => h2 e.symm)]
    · rw [show jsObjSet ((k0, v0) :: tl) k v = (k0, v0) :: jsObjSet tl k v by
        simp [jsObjSet, beq_eq_false_iff_ne.mpr h0]]
      by_cases h2 : k2 = k0
      · subst h2
        rw [lookupStr_cons, if_pos rfl, if_neg h0, lookupStr_cons, if_pos rfl]
      · rw [lookupStr_cons, if_neg (fun e => h2 e.symm), ih]
        by_cases hk : k2 = k
        · rw [if_pos hk, if_pos hk]
        · rw [if_neg hk, if_neg hk, lookupStr_cons, if_neg (fun e => h2 e.symm)]

/-- Lookup in a JS object built by a fold of key-determined assignments:
an assigned key maps to its (key-determined) value. -/
lemma lookupStr_foldl_set {β : Type} (F : JStr → β) (keys : List (Option Value))
    (init : List (JStr × β)) (k : JStr) :
    lookupStr (keys.foldl (fun obj r => jsObjSet obj (jsToStringU r) (F (jsToStringU r))) init) k
      = if k ∈ keys.map jsToStringU then some (F k) else lookupStr init k := by
  induction keys generalizing init with
  | nil => simp
  | cons r rest ih =>
    simp only [List.foldl_cons, List.map_cons, List.mem_cons]
    rw [ih]
    by_cases hmem : k ∈ rest.map jsToStringU
    · simp [hmem]
    · by_cases hk : k = jsToStringU r
      · subst hk
        simp [hmem, lookupStr_jsObjSet]
      · simp [hmem, hk, lookupStr_jsObjSet]

/-- Every branch of the pivot aggregation switch yields `0` on an empty
value list. -/
lemma pivotAgg_empty (agg : JStr) : pivotAgg agg [] = JSNum.num 0 := by
  unfold pivotAgg
  repeat' split
  all_goals first
    | rfl
    | decide
    | simp_all

lemma mem_sortDefaultJS (l : List (Option Value)) (x : Option Value) :
    x ∈ sortDefaultJS l ↔ x ∈ l := by
  simp only [sortDefaultJS, List.mem_append, mem_sortCmpList, List.mem_filter]
  by_cases h : x.isSome <;> simp [h]

/-! ## Claim theorems -/

/-- C1 (amended): when a limit option `N ≥ 1` is set, the limit stage
truncates the table (in the order the prior stages left it) to length
`min(N, length)`, and its output is a prefix of that order; a limit of `0`
is falsy and skips the stage, leaving the table unchanged rather than
emptying it. -/
theorem limit_stage_truncates_or_skips :
    ∀ (opts : Options) (st : JSState) (n : Int), opts.limit = some n →
      (1 ≤ n →
        (stageLimit opts st).cleaned.length = min n.toNat st.cleaned.length ∧
        (stageLimit opts st).cleaned <+: st.cleaned) ∧
      (n = 0 → (stageLimit opts st).cleaned = st.cleaned) := by
  intro opts st n h
  constructor
  · intro h1
    have hne : ¬ (n = 0) := by omega
    have hnn : ¬ (n < 0) := by omega
    simp only [stageLimit, h, if_neg hne, jsSliceTo, if_neg hnn]
    exact ⟨List.length_take _ _, ⟨st.cleaned.drop n.toNat, List.take_append_drop _ _⟩⟩
  · intro h0
    simp only [stageLimit, h, if_pos h0]

/-- Witness for C1 at a concrete 3-element table and limit 2. -/
theorem limit_stage_witness :
    (stageLimit { limit := some 2 }
        { store := [], cleaned := [5, 6, 7], inputArr := [5, 6, 7], aliased := true }).cleaned.length
      = min (Int.toNat 2) 3 ∧
    (stageLimit { limit := some 2 }
        { store := [], cleaned := [5, 6, 7], inputArr := [5, 6, 7], aliased := true }).cleaned
      <+: [5, 6, 7] :=
  (limit_stage_truncates_or_skips { limit := some 2 }
    { store := [], cleaned := [5, 6, 7], inputArr := [5, 6, 7], aliased := true } 2 rfl).1
    (by omega)

/-- C1 counterexample: with limit `0` on a one-record table, `cleanData`
returns the whole table (length 1, not `min(0,1) = 0`): `if (options.limit)`
treats `0` as "no limit". -/
theorem limit_zero_counterexample :
    (cleanData [[(("a".toList), Value.vNum (.num 1))]] [0] { limit := some 0 }).cleaned = [0] := by
  decide

/-- C2: the claim is right and the code wrong.  The guard
`Number(v) || Infinity` of the `min` aggregation maps the value `0` to
`Infinity` (`0` is falsy), so `min` over `[0, 5]` returns `5`, not the
numeric minimum `0`; symmetrically `max` over `[0, -5]` returns `-5`. -/
theorem min_max_zero_bug :
    aggregateGroup [[(("v".toList), Value.vNum (.num 0))], [(("v".toList), Value.vNum (.num 5))]]
        [(("v".toList), ("min".toList))]
      = [(("v".toList), AggResult.num (.num 5))] ∧
    aggregateGroup [[(("v".toList), Value.vNum (.num 0))], [(("v".toList), Value.vNum (.num (-5)))]]
        [(("v".toList), ("max".toList))]
      = [(("v".toList), AggResult.num (.num (-5)))] := by
  decide

/-- C3 (amended): a record lacking the filter's field evaluates to `false`
for `eq`/`gt`/`lt`/`gte`/`lte` and to `true` for `neq`; but the string
operators first coerce the absent value to the literal string
`"undefined"`, so `contains`/`startsWith`/`endsWith`/`regex` hold exactly
when the operand matches that string (e.g. operand `undef` or `fine`). -/
theorem filter_absent_field_semantics :
    ∀ operand : JStr,
      filterPred none ("eq".toList) operand = false ∧
      filterPred none ("neq".toList) operand = true ∧
      filterPred none ("gt".toList) operand = false ∧
      filterPred none ("lt".toList) operand = false ∧
      filterPred none ("gte".toList) operand = false ∧
      filterPred none ("lte".toList) operand = false ∧
      filterPred none ("contains".toList) operand = jsIncludes ("undefined".toList) operand ∧
      filterPred none ("startsWith".toList) operand = jsStartsWith ("undefined".toList) operand ∧
      filterPred none ("endsWith".toList) operand = jsEndsWith ("undefined".toList) operand ∧
      filterPred none ("regex".toList) operand = regexTest operand ("undefined".toList) := by
  intro operand
  refine ⟨rfl, rfl, ?_, ?_, ?_, ?_, rfl, rfl, rfl, rfl⟩
  · show (jsNumLt (parseNumber operand) JSNum.nan).getD false = false
    rw [jsNumLt_nan_right]
    rfl
  · show (jsNumLt JSNum.nan (parseNumber operand)).getD false = false
    rw [jsNumLt_nan_left]
    rfl
  · show (match jsNumLt JSNum.nan (parseNumber operand) with
      | some r => !r
      | none => false) = false
    rw [jsNumLt_nan_left]
  · show (match jsNumLt (parseNumber operand) JSNum.nan with
      | some r => !r
      | none => false) = false
    rw [jsNumLt_nan_right]

/-- C3 counterexample: the claim says every operator except `neq` drops a
record lacking the field, for every operand; but a `contains` filter with
operand `undef` keeps such a record (`String(undefined)` is
`"undefined"`, which contains `"undef"`). -/
theorem filter_absent_contains_keeps :
    (cleanData [[(("x".toList), Value.vNum (.num 1))]] [0]
        { filter := some { column := ("name".toList), operator := ("contains".toList),
                           value := ("undef".toList) } }).cleaned = [0] := by
  decide

/-- C4 (amended): the `gt`/`lt`/`gte`/`lte` comparison is numeric only
when at least one side is a number value; when both sides are strings —
as always happens for CSV data with a CLI operand — JS compares
lexicographically, so the string `"18"` does NOT satisfy `gt "9"`,
while the number `18` does. -/
theorem coercive_comparison_semantics :
    (∀ s t : JStr, filterPred (some (.vStr s)) ("gt".toList) t = jstrLt t s) ∧
    (∀ (q : ℚ) (t : JStr) (p : ℚ), parseNumber t = JSNum.num p →
       filterPred (some (.vNum (.num q))) ("gt".toList) t = decide (p < q)) ∧
    filterPred (some (.vNum (.num 18))) ("gt".toList) ("9".toList) = true ∧
    filterPred (some (.vStr ("18".toList))) ("gt".toList) ("9".toList) = false := by
  refine ⟨fun s t => rfl, ?_, by decide, by decide⟩
  intro q t p h
  show (jsNumLt (parseNumber t) (JSNum.num q)).getD false = decide (p < q)
  rw [h]
  rfl

/-- Witness for C4's numeric clause at field value `18` and operand `"9"`. -/
theorem coercive_comparison_witness :
    parseNumber ("9".toList) = JSNum.num 9 ∧
    filterPred (some (.vNum (.num 18))) ("gt".toList) ("9".toList) = decide ((9 : ℚ) < 18) :=
  ⟨by decide, coercive_comparison_semantics.2.1 18 ("9".toList) 9 (by decide)⟩

/-- C5 (amended): `cleanData` is NOT observably pure in general — the
transform stage rewrites the input's records in place and the sort stage
reorders the input array in place (when no earlier stage has replaced the
working array); but when neither a transform nor a sort option is set,
the caller's input table is left unchanged: every other stage either
shares records without touching them or allocates fresh ones. -/
theorem cleanData_pure_without_transform_sort :
    ∀ (store : List Record) (data : List Nat) (opts : Options),
      opts.transform = none → opts.sort = none →
      (∀ r ∈ data, r < store.length) →
      resolveRefs (cleanData store data opts).store (cleanData store data opts).inputArr
        = resolveRefs store data := by
  intro store data opts ht hs hwf
  unfold cleanData
  rw [stageSort_none opts _ hs, stageTransform_none opts _ ht]
  set st0 : JSState := { store := store, cleaned := data, inputArr := data, aliased := true }
    with hst0
  obtain ⟨ia1, se1⟩ := stageRemoveEmpty_frame opts st0
  obtain ⟨ia2, se2⟩ := stageDedup_frame opts (stageRemoveEmpty opts st0)
  obtain ⟨ia3, se3⟩ := stageTrim_frame opts (stageDedup opts (stageRemoveEmpty opts st0))
  obtain ⟨ia4, se4⟩ := stageCase_frame opts
    (stageTrim opts (stageDedup opts (stageRemoveEmpty opts st0)))
  obtain ⟨ia5, se5⟩ := stageColumns_frame opts
    (stageCase opts (stageTrim opts (stageDedup opts (stageRemoveEmpty opts st0))))
  obtain ⟨ia6, se6⟩ := stageFilter_frame opts
    (stageColumns opts (stageCase opts (stageTrim opts (stageDedup opts
      (stageRemoveEmpty opts st0)))))
  obtain ⟨ia7, se7⟩ := stageLimit_frame opts
    (stageFilter opts (stageColumns opts (stageCase opts (stageTrim opts (stageDedup opts
      (stageRemoveEmpty opts st0))))))
  have hInput : (stageLimit opts (stageFilter opts (stageColumns opts (stageCase opts
      (stageTrim opts (stageDedup opts (stageRemoveEmpty opts st0))))))).inputArr = data := by
    rw [ia7, ia6, ia5, ia4, ia3, ia2, ia1]
  have hExt : StoreExt store (stageLimit opts (stageFilter opts (stageColumns opts
      (stageCase opts (stageTrim opts (stageDedup opts
        (stageRemoveEmpty opts st0))))))).store :=
    ((((((se1.trans se2).trans se3).trans se4).trans se5).trans se6).trans se7)
  obtain ⟨T, hT⟩ := hExt
  rw [hInput, hT]
  exact resolveRefs_append store T data hwf

/-- Witness for C5 with a trim-only option set on a one-record table. -/
theorem cleanData_pure_witness :
    resolveRefs (cleanData [[(("f".toList), Value.vStr (" a".toList))]] [0]
        { trim := true }).store
      (cleanData [[(("f".toList), Value.vStr (" a".toList))]] [0] { trim := true }).inputArr
    = resolveRefs [[(("f".toList), Value.vStr (" a".toList))]] [0] :=
  cleanData_pure_without_transform_sort [[(("f".toList), Value.vStr (" a".toList))]] [0]
    { trim := true } rfl rfl (by decide)

/-- C5 counterexample: with an `uppercase` transform on field `f`,
`cleanData` mutates the caller's record in place — after the call the
input table reads `{f: "A"}` instead of the original `{f: "a"}`. -/
theorem transform_mutates_input :
    resolveRefs
        (cleanData [[(("f".toList), Value.vStr ("a".toList))]] [0]
          { transform := some { column := ("f".toList),
                                transform := ("uppercase".toList) } }).store
        (cleanData [[(("f".toList), Value.vStr ("a".toList))]] [0]
          { transform := some { column := ("f".toList),
                                transform := ("uppercase".toList) } }).inputArr
      ≠ resolveRefs [[(("f".toList), Value.vStr ("a".toList))]] [0] := by
  decide

/-- C8 (amended): no `UnknownOperation` error exists anywhere in the code;
unrecognized operations are silently processed.  An unrecognized filter
operator falls into the switch's `default: return true`, keeping every
record; an unrecognized aggregation kind (without a `percentile:` prefix)
assigns nothing, silently omitting the output field; an unrecognized
transform kind leaves the field value unchanged. -/
theorem unknown_operation_is_silent :
    (∀ (v : Option Value) (op operand : JStr),
       op ∉ [("eq".toList), ("neq".toList), ("gt".toList), ("lt".toList), ("gte".toList),
             ("lte".toList), ("contains".toList), ("startsWith".toList), ("endsWith".toList),
             ("regex".toList)] →
       filterPred v op operand = true) ∧
    (∀ (group : List Record) (f t : JStr),
       t ∉ [("sum".toList), ("avg".toList), ("min".toList), ("max".toList), ("count".toList),
            ("count_distinct".toList), ("first".toList), ("last".toList), ("concat".toList),
            ("array".toList)] →
       jsStartsWith t ("percentile:".toList) = false →
       aggregateGroup group [(f, t)] = []) ∧
    (∀ (fn : JStr) (v : Value),
       fn ∉ [("uppercase".toList), ("lowercase".toList), ("capitalize".toList),
             ("trim".toList), ("number".toList), ("string".toList)] →
       jsStartsWith fn ("replace:".toList) = false →
       jsStartsWith fn ("multiply:".toList) = false →
       jsStartsWith fn ("divide:".toList) = false →
       transformValue fn v = v) := by
  refine ⟨?_, ?_, ?_⟩
  · intro v op operand h
    simp only [List.mem_cons, List.not_mem_nil, or_false, not_or] at h
    obtain ⟨h1, h2, h3, h4, h5, h6, h7, h8, h9, h10⟩ := h
    simp only [filterPred, beq_eq_false_iff_ne.mpr h1, beq_eq_false_iff_ne.mpr h2,
      beq_eq_false_iff_ne.mpr h3, beq_eq_false_iff_ne.mpr h4, beq_eq_false_iff_ne.mpr h5,
      beq_eq_false_iff_ne.mpr h6, beq_eq_false_iff_ne.mpr h7, beq_eq_false_iff_ne.mpr h8,
      beq_eq_false_iff_ne.mpr h9, beq_eq_false_iff_ne.mpr h10, Bool.false_eq_true, if_false]
  · intro group f t h hp
    simp only [List.mem_cons, List.not_mem_nil, or_false, not_or] at h
    obtain ⟨h1, h2, h3, h4, h5, h6, h7, h8, h9, h10⟩ := h
    have hone : aggregateOne (filteredValues group f) t = none := by
      simp only [aggregateOne, hp, beq_eq_false_iff_ne.mpr h1, beq_eq_false_iff_ne.mpr h2,
        beq_eq_false_iff_ne.mpr h3, beq_eq_false_iff_ne.mpr h4, beq_eq_false_iff_ne.mpr h5,
        beq_eq_false_iff_ne.mpr h6, beq_eq_false_iff_ne.mpr h7, beq_eq_false_iff_ne.mpr h8,
        beq_eq_false_iff_ne.mpr h9, beq_eq_false_iff_ne.mpr h10, Bool.false_eq_true, if_false]
    simp only [aggregateGroup, List.foldl_cons, List.foldl_nil, hone]
  · intro fn v h hr hm hd
    simp only [List.mem_cons, List.not_mem_nil, or_false, not_or] at h
    obtain ⟨h1, h2, h3, h4, h5, h6⟩ := h
    simp only [transformValue, hr, hm, hd, beq_eq_false_iff_ne.mpr h1,
      beq_eq_false_iff_ne.mpr h2, beq_eq_false_iff_ne.mpr h3, beq_eq_false_iff_ne.mpr h4,
      beq_eq_false_iff_ne.mpr h5, beq_eq_false_iff_ne.mpr h6, Bool.false_eq_true, if_false]

/-- Witness for C8 at the concrete unknown operation names `like`,
`median` and `frobnicate`. -/
theorem unknown_operation_witness :
    filterPred none ("like".toList) ("1".toList) = true ∧
    aggregateGroup [] [(("v".toList), ("median".toList))] = [] ∧
    transformValue ("frobnicate".toList) Value.vNull = Value.vNull :=
  ⟨unknown_operation_is_silent.1 none ("like".toList) ("1".toList) (by decide),
   unknown_operation_is_silent.2.1 [] ("v".toList) ("median".toList) (by decide) (by decide),
   unknown_operation_is_silent.2.2 ("frobnicate".toList) Value.vNull (by decide) (by decide)
     (by decide) (by decide)⟩

/-- C8 counterexample: with the unrecognized filter operator `like`,
`cleanData` silently keeps every record — no error is surfaced (the
embedding is total because the source throws nothing). -/
theorem unknown_filter_op_keeps_all :
    (cleanData [[(("a".toList), Value.vNum (.num 1))], [(("b".toList), Value.vNum (.num 2))]]
        [0, 1]
        { filter := some { column := ("a".toList), operator := ("like".toList),
                           value := ("1".toList) } }).cleaned = [0, 1] := by
  decide

/-- C4 counterexample: a record whose field value is the string `"18"` is
dropped by the filter `gt` with operand `"9"` (lexicographic string
comparison: `"18" < "9"`), contradicting the claim that it is kept. -/
theorem numeric_string_gt_drops :
    (cleanData [[(("age".toList), Value.vStr ("18".toList))]] [0]
        { filter := some { column := ("age".toList), operator := ("gt".toList),
                           value := ("9".toList) } }).cleaned = ([] : List Nat) := by
  decide

/-- C7: for every non-empty list of numeric values,
`calculatePercentile(values, 0)` is the minimum of the values and
`calculatePercentile(values, 100)` the maximum; `percentile([10,20],50)`
is `15`; and the percentile of an empty value list is `0` for every
percentile argument. -/
theorem percentile_boundaries :
    (∀ values : List ℚ, values ≠ [] →
       (calculatePercentile values 0 ∈ values ∧
        ∀ x ∈ values, calculatePercentile values 0 ≤ x) ∧
       (calculatePercentile values 100 ∈ values ∧
        ∀ x ∈ values, x ≤ calculatePercentile values 100)) ∧
    calculatePercentile [10, 20] 50 = 15 ∧
    (∀ p : ℚ, calculatePercentile [] p = 0) := by
  refine ⟨?_, ?_, fun _ => rfl⟩
  · intro values h
    have hperm := sortCmpList_perm qLeB values
    have hsorted := pairwise_sortCmpList_q values
    have hne : sortCmpList qLeB values ≠ [] := by
      intro h0
      have hl := sortCmpList_length qLeB values
      rw [h0] at hl
      exact h (List.length_eq_zero.mp hl.symm)
    refine ⟨?_, ?_⟩
    · rw [calcP_zero values h]
      refine ⟨hperm.mem_iff.mp (getD_zero_mem _ hne), ?_⟩
      intro x hx
      exact sorted_getD_zero_le _ hsorted x (hperm.mem_iff.mpr hx)
    · rw [calcP_hundred values h]
      refine ⟨hperm.mem_iff.mp (getD_last_mem _ hne), ?_⟩
      intro x hx
      exact sorted_le_getD_last _ hsorted x (hperm.mem_iff.mpr hx)
  · have hc : (⌈(1/2 : ℚ)⌉ : ℤ) = 1 := by
      rw [Int.ceil_eq_iff]
      norm_num
    have hf : (⌊(1/2 : ℚ)⌋ : ℤ) = 0 := by norm_num
    unfold calculatePercentile
    norm_num [sortCmpList, insertCmp, qLeB]
    norm_num [hc, hf]

/-- Witness for C7 at a concrete non-empty list. -/
theorem percentile_boundaries_witness :
    ([(3 : ℚ), 1] ≠ []) ∧ calculatePercentile [3, 1] 0 ∈ [(3 : ℚ), 1] :=
  ⟨by decide, ((percentile_boundaries.1 [3, 1] (by decide)).1).1⟩

/-- C6 (amended): a missing/null grouping-field value maps to the key
SEGMENT `'__null__'`, which is distinct from the empty string's segment,
and with a single grouping field a `null` record and a `""` record never
share a group.  Beyond that the claim fails in two ways: the sentinel is
not distinct from every real value — a field whose value is the literal
string `"__null__"` gets the very same segment and merges with the `null`
group — and with several grouping fields the segments are joined with an
unescaped `'|'`, which can put a `null` record and a `""` record in the
same group after all. -/
theorem null_sentinel_groups :
    (∀ (r1 r2 : Record) (f : JStr),
       getField r1 f = some Value.vNull → getField r2 f = some (Value.vStr []) →
       groupKeySeg r1 f = ("__null__".toList) ∧ groupKeySeg r2 f = ([] : JStr) ∧
       groupKeySeg r1 f ≠ groupKeySeg r2 f) ∧
    (∀ (data : List Record) (f : JStr) (kg : JStr × List Record) (r1 r2 : Record),
       kg ∈ groupByMultiple data [f] → r1 ∈ kg.2 → r2 ∈ kg.2 →
       getField r1 f = some Value.vNull → getField r2 f ≠ some (Value.vStr [])) ∧
    (∀ (r1 r2 : Record) (f : JStr),
       getField r1 f = some Value.vNull →
       getField r2 f = some (Value.vStr ("__null__".toList)) →
       compositeKey [f] r1 = compositeKey [f] r2) := by
  refine ⟨?_, ?_, ?_⟩
  · intro r1 r2 f h1 h2
    refine ⟨?_, ?_, ?_⟩
    · simp [groupKeySeg, h1]
    · simp [groupKeySeg, h2, jsToString]
    · simp [groupKeySeg, h1, h2, jsToString]
  · intro data f kg r1 r2 hkg hr1 hr2 hget1 hget2
    have k1 := groupByMultiple_key [f] data kg hkg r1 hr1
    have k2 := groupByMultiple_key [f] data kg hkg r2 hr2
    have hks : compositeKey [f] r1 = compositeKey [f] r2 := k1.trans k2.symm
    rw [show compositeKey [f] r1 = groupKeySeg r1 f by
          simp [compositeKey, jsJoin_single],
        show compositeKey [f] r2 = groupKeySeg r2 f by
          simp [compositeKey, jsJoin_single]] at hks
    simp only [groupKeySeg, hget1, hget2] at hks
    simp [jsToString] at hks
  · intro r1 r2 f h1 h2
    rw [show compositeKey [f] r1 = groupKeySeg r1 f by
          simp [compositeKey, jsJoin_single],
        show compositeKey [f] r2 = groupKeySeg r2 f by
          simp [compositeKey, jsJoin_single]]
    simp only [groupKeySeg, h1, h2]
    simp [jsToString]

/-- Witness for C6: the segment clause and the sentinel-collision clause
at concrete records. -/
theorem null_sentinel_witness :
    (groupKeySeg [(("f".toList), Value.vNull)] ("f".toList) ≠
       groupKeySeg [(("f".toList), Value.vStr [])] ("f".toList)) ∧
    compositeKey [("f".toList)] [(("f".toList), Value.vNull)]
      = compositeKey [("f".toList)] [(("f".toList), Value.vStr ("__null__".toList))] :=
  ⟨(null_sentinel_groups.1 [(("f".toList), Value.vNull)]
      [(("f".toList), Value.vStr [])] ("f".toList) (by decide) (by decide)).2.2,
   null_sentinel_groups.2.2 [(("f".toList), Value.vNull)]
     [(("f".toList), Value.vStr ("__null__".toList))] ("f".toList) (by decide) (by decide)⟩

/-- C6 counterexample, refuting the claim in both ways: a `null` record
and a record whose real field value is the string `"__null__"` land in the
same single-field group; and with grouping fields `[g, f, h]` the records
`{g:"x|", f:null, h:"b"}` and `{g:"x", f:"", h:"__null__|b"}` share the
composite key `"x||__null__|b"` — a `null` record and a `""` record in
the same group. -/
theorem null_sentinel_collision :
    groupByMultiple
        [[(("f".toList), Value.vNull)], [(("f".toList), Value.vStr ("__null__".toList))]]
        [("f".toList)]
      = [(("__null__".toList),
          [[(("f".toList), Value.vNull)],
           [(("f".toList), Value.vStr ("__null__".toList))]])] ∧
    groupByMultiple
        [[(("g".toList), Value.vStr ("x|".toList)), (("f".toList), Value.vNull),
          (("h".toList), Value.vStr ("b".toList))],
         [(("g".toList), Value.vStr ("x".toList)), (("f".toList), Value.vStr []),
          (("h".toList), Value.vStr ("__null__|b".toList))]]
        [("g".toList), ("f".toList), ("h".toList)]
      = [(("x||__null__|b".toList),
          [[(("g".toList), Value.vStr ("x|".toList)), (("f".toList), Value.vNull),
            (("h".toList), Value.vStr ("b".toList))],
           [(("g".toList), Value.vStr ("x".toList)), (("f".toList), Value.vStr []),
            (("h".toList), Value.vStr ("__null__|b".toList))]])] := by
  exact ⟨by decide, by decide⟩

/-- C9: in `pivotTable`, every (row, column) pair of the emitted cross
product whose `row::col` key collected no values gets cell value `0`, for
every aggregation function — `min`, `max` and `avg` included (each branch
guards the empty list and yields `0`). -/
theorem pivot_empty_cell_is_zero :
    ∀ (data : List Record) (rowField columnField valueField aggFunction : JStr)
      (r c : Option Value),
      r ∈ (pivotTable data rowField columnField valueField aggFunction).rows →
      c ∈ (pivotTable data rowField columnField valueField aggFunction).columns →
      lookupStr (collectValues data rowField columnField valueField)
        (pivotKeyStr (jsToStringU r) (jsToStringU c)) = none →
      ((lookupStr (pivotTable data rowField columnField valueField aggFunction).data
          (jsToStringU r)).bind (fun row => lookupStr row (jsToStringU c)))
        = some (JSNum.num 0) := by
  intro data rf cf vf agg r c hr hc hnone
  simp only [pivotTable] at hr hc ⊢
  rw [mem_sortDefaultJS] at hr hc
  unfold pivotDataObj
  rw [lookupStr_foldl_set
        (pivotCells (collectValues data rf cf vf) agg
          (firstAppear (data.map (fun item => getField item cf))))
        (firstAppear (data.map (fun item => getField item rf))) [] (jsToStringU r)]
  rw [if_pos (List.mem_map_of_mem jsToStringU hr)]
  show lookupStr (pivotCells (collectValues data rf cf vf) agg
      (firstAppear (data.map (fun item => getField item cf))) (jsToStringU r))
      (jsToStringU c) = some (JSNum.num 0)
  unfold pivotCells
  rw [lookupStr_foldl_set
        (fun cs => pivotAgg agg
          ((lookupStr (collectValues data rf cf vf)
            (pivotKeyStr (jsToStringU r) cs)).getD []))
        (firstAppear (data.map (fun item => getField item cf))) [] (jsToStringU c)]
  rw [if_pos (List.mem_map_of_mem jsToStringU hc)]
  rw [hnone]
  rw [Option.getD_none, pivotAgg_empty]

/-- Witness for C9: the pair (`"x"`, `"q"`) of the cross product collects
no values on a two-record table, and its `min` cell is `0`. -/
theorem pivot_empty_cell_witness :
    ((lookupStr (pivotTable
        [[(("r".toList), Value.vStr ("x".toList)), (("c".toList), Value.vStr ("p".toList)),
          (("v".toList), Value.vStr ("1".toList))],
         [(("r".toList), Value.vStr ("y".toList)), (("c".toList), Value.vStr ("q".toList)),
          (("v".toList), Value.vStr ("2".toList))]]
        ("r".toList) ("c".toList) ("v".toList) ("min".toList)).data
        (jsToStringU (some (Value.vStr ("x".toList))))).bind
      (fun row => lookupStr row (jsToStringU (some (Value.vStr ("q".toList))))))
      = some (JSNum.num 0) :=
  pivot_empty_cell_is_zero
    [[(("r".toList), Value.vStr ("x".toList)), (("c".toList), Value.vStr ("p".toList)),
      (("v".toList), Value.vStr ("1".toList))],
     [(("r".toList), Value.vStr ("y".toList)), (("c".toList), Value.vStr ("q".toList)),
      (("v".toList), Value.vStr ("2".toList))]]
    ("r".toList) ("c".toList) ("v".toList) ("min".toList)
    (some (Value.vStr ("x".toList))) (some (Value.vStr ("q".toList)))
    (by decide) (by decide) (by decide)

/-- C10: the composite key joins stringified field values with `'|'` and
no escaping, so with grouping fields `[f, g]` the records
`{f: "a|b", g: "c"}` and `{f: "a", g: "b|c"}` both get key `"a|b|c"` and
are grouped together. -/
theorem separator_collision_groups :
    groupByMultiple
        [[(("f".toList), Value.vStr ("a|b".toList)), (("g".toList), Value.vStr ("c".toList))],
         [(("f".toList), Value.vStr ("a".toList)), (("g".toList), Value.vStr ("b|c".toList))]]
        [("f".toList), ("g".toList)]
      = [(("a|b|c".toList),
          [[(("f".toList), Value.vStr ("a|b".toList)), (("g".toList), Value.vStr ("c".toList))],
           [(("f".toList), Value.vStr ("a".toList)),
            (("g".toList), Value.vStr ("b|c".toList))]])] := by
  decide

end DataCleaner
